import Mathlib

/-!
Shallow embedding of the CUBLOC BASIC language-server validation core
(`src/source/server/server.js`): the tokenizer, the string-aware text
utilities, the block-nesting stack machine and the per-statement grammar
validators, together with theorems settling the frozen claims about them.

JavaScript strings are modelled as `List Char` indexed by `Nat` (the inputs
of interest are ASCII, where JS UTF-16 code-unit indices coincide with
character indices).  The mutable `diagnostics` array and block `stack` become
explicit values threaded through the functions; each validator returns the
diagnostics it appends.  The block stack is kept TOP-FIRST (head = innermost
frame), so JS `stack.push` is `cons`, JS top-down scans are head-first scans,
and JS `stack.length = matchIndex` (discard the matched frame and everything
above) is `List.drop (idx + 1)` for `idx` the top-relative match index.
-/

/-- Severity values of `DiagnosticSeverity` used by the server
(Error = 1, Warning = 2, Information = 3). -/
inductive Severity where
  | error
  | warning
  | information
deriving Repr, DecidableEq

/-- `makeRange` in the source always produces a single-line range, so a range
is flattened to (line, start character, end character); the range is half-open
on characters. -/
structure DiagRange where
  line : Nat
  startChar : Nat
  endChar : Nat
deriving Repr, DecidableEq

/-- One diagnostic as pushed by the server: severity, range, message and the
fixed `source` tag. -/
structure Diagnostic where
  severity : Severity
  range : DiagRange
  message : String
  source : String
deriving Repr, DecidableEq

/-- `makeRange(line, start, end)` from the source. -/
def makeRange (line start stop : Nat) : DiagRange :=
  { line := line, startChar := start, endChar := stop }

/-- A token of `getTokens`: upper-cased text, source start offset, length. -/
structure Token where
  text : String
  index : Nat
  length : Nat
deriving Repr, DecidableEq

/-- A block-stack entry as built by `pushBlock` / `handleDoLine`: block kind,
opening line, opening column range, and the DO-only condition metadata. -/
structure BlockEntry where
  type : String
  line : Nat
  character : Nat
  length : Nat
  conditionPlacement : Option String := none
  conditionKind : Option String := none
deriving Repr, DecidableEq

/-- Result of `parseLoopCondition` (JS object `{kind, missingExpression}`). -/
structure LoopCond where
  kind : String
  missingExpression : Bool
deriving Repr, DecidableEq

/-- The `BLOCK_ENDINGS` table. -/
def BLOCK_ENDINGS (type : String) : Option String :=
  match type with
  | "IF" => some "End If"
  | "FOR" => some "Next"
  | "DO" => some "Loop"
  | "WHILE" => some "Wend"
  | "SUB" => some "End Sub"
  | "FUNCTION" => some "End Function"
  | "SELECT" => some "End Select"
  | "TYPE" => some "End Type"
  | "WITH" => some "End With"
  | _ => none

/-- The `KEYWORD_TITLE` table. -/
def KEYWORD_TITLE (word : String) : Option String :=
  match word with
  | "IF" => some "If"
  | "THEN" => some "Then"
  | "ELSE" => some "Else"
  | "ELSEIF" => some "ElseIf"
  | "ENDIF" => some "End If"
  | "FOR" => some "For"
  | "TO" => some "To"
  | "STEP" => some "Step"
  | "NEXT" => some "Next"
  | "DO" => some "Do"
  | "LOOP" => some "Loop"
  | "WHILE" => some "While"
  | "WEND" => some "Wend"
  | "UNTIL" => some "Until"
  | "SUB" => some "Sub"
  | "FUNCTION" => some "Function"
  | "TYPE" => some "Type"
  | "WITH" => some "With"
  | "SELECT" => some "Select"
  | "END" => some "End"
  | "GOTO" => some "GoTo"
  | "GOSUB" => some "GoSub"
  | "RETURN" => some "Return"
  | "DIM" => some "Dim"
  | "INPUT" => some "Input"
  | "OUTPUT" => some "Output"
  | "OUT" => some "Out"
  | "DEBUG" => some "Debug"
  | "DELAY" => some "Delay"
  | "PRINT" => some "Print"
  | "LET" => some "Let"
  | "IN" => some "In"
  | "CONST" => some "Const"
  | "OPTION" => some "Option"
  | "DECLARE" => some "Declare"
  | "PUBLIC" => some "Public"
  | "PRIVATE" => some "Private"
  | "SHARED" => some "Shared"
  | "STATIC" => some "Static"
  | "GLOBAL" => some "Global"
  | "LOCAL" => some "Local"
  | "BYVAL" => some "ByVal"
  | "BYREF" => some "ByRef"
  | "ALIAS" => some "Alias"
  | "LIB" => some "Lib"
  | _ => none

/-- `formatKeyword`: `KEYWORD_TITLE[word] || word` (no table value is the
empty string, so JS falsiness is exactly `Option.getD`). -/
def formatKeyword (word : String) : String :=
  (KEYWORD_TITLE word).getD word

/-- JS regex class `[A-Za-z_]` (first character of an identifier). -/
def isAlphaUnd (c : Char) : Bool :=
  c.isAlpha || c = '_'

/-- JS regex class `[A-Za-z0-9_]` (continuation character, also `\w`). -/
def isWordChar (c : Char) : Bool :=
  c.isAlphanum || c = '_'

/-- JS regex class `\s` restricted to the ASCII whitespace characters. -/
def isSpaceJS (c : Char) : Bool :=
  c = ' ' || c = '\t' || c = '\n' || c = '\r' || c = '\x0b' || c = '\x0c'

/-- Splits a character list into the maximal leading run of `[A-Za-z0-9_]`
characters and the remainder (the identifier-run scan of `getTokens`). -/
def wordSplit : List Char → List Char × List Char
  | [] => ([], [])
  | c :: rest =>
    if isWordChar c then
      let p := wordSplit rest
      (c :: p.1, p.2)
    else ([], c :: rest)

theorem wordSplit_snd_length_le (cs : List Char) :
    (wordSplit cs).2.length ≤ cs.length := by
  induction cs with
  | nil => simp [wordSplit]
  | cons c rest ih =>
    cases h : isWordChar c
    · simp [wordSplit, h]
    · simp only [wordSplit, h, if_true]
      simpa using Nat.le_trans ih (Nat.le_succ _)

theorem isWordChar_of_isAlphaUnd {c : Char} (h : isAlphaUnd c = true) :
    isWordChar c = true := by
  unfold isAlphaUnd at h
  unfold isWordChar Char.isAlphanum
  cases h' : c.isAlpha <;> simp_all

/-- `getTokens`'s scanning loop: `cs` is the rest of the line, `i` the index
of its first character in the whole line, `inString` the string state.  A
double quote toggles the string state, `""` inside a string is an embedded
quote, an apostrophe outside a string ends tokenization, an identifier run is
upper-cased into a token, and the word `REM` ends tokenization without
producing a token.  `fuel` only bounds the recursion (each step consumes at
least one character, so `cs.length` fuel always suffices); it keeps the
recursion structural and hence kernel-computable. -/
def getTokensAux (fuel : Nat) (cs : List Char) (i : Nat) (inString : Bool) :
    List Token :=
  match fuel, cs with
  | 0, _ => []
  | _ + 1, [] => []
  | fuel + 1, c :: rest =>
    if inString then
      if c = '"' then
        match rest with
        | '"' :: rest2 => getTokensAux fuel rest2 (i + 2) true
        | _ => getTokensAux fuel rest (i + 1) false
      else getTokensAux fuel rest (i + 1) true
    else
      if c = '"' then getTokensAux fuel rest (i + 1) true
      else if c = '\'' then []
      else if isAlphaUnd c then
        let p := wordSplit (c :: rest)
        let word := String.mk (p.1.map Char.toUpper)
        if word = "REM" then []
        else
          { text := word, index := i, length := p.1.length } ::
            getTokensAux fuel p.2 (i + p.1.length) false
      else getTokensAux fuel rest (i + 1) false

/-- `getTokens(line)` from the source. -/
def getTokens (line : List Char) : List Token :=
  getTokensAux line.length line 0 false

/-- `line[i]` (JS indexing: `undefined` out of range becomes `none`). -/
def charAt (line : List Char) (i : Nat) : Option Char :=
  line.get? i

/-- The apostrophe half of `stripComments`: the index of the first apostrophe
outside a string literal, scanning with the same `""`-aware string state as
the tokenizer. -/
def apoIndexAux (fuel : Nat) (cs : List Char) (i : Nat) (inString : Bool) :
    Option Nat :=
  match fuel, cs with
  | 0, _ => none
  | _ + 1, [] => none
  | fuel + 1, c :: rest =>
    if inString then
      if c = '"' then
        match rest with
        | '"' :: rest2 => apoIndexAux fuel rest2 (i + 2) true
        | _ => apoIndexAux fuel rest (i + 1) false
      else apoIndexAux fuel rest (i + 1) true
    else
      if c = '"' then apoIndexAux fuel rest (i + 1) true
      else if c = '\'' then some i
      else apoIndexAux fuel rest (i + 1) false

/-- Whether the regex `\bREM\b` (case-insensitive) matches at the start of
`cs`, given the previous character `prev` (`none` at the start of the line):
`REM` in either case, preceded and followed by a non-`\w` character or the
line boundary. -/
def remHere (cs : List Char) (prev : Option Char) : Bool :=
  match cs with
  | c1 :: c2 :: c3 :: rest =>
    (c1 = 'R' || c1 = 'r') && (c2 = 'E' || c2 = 'e') && (c3 = 'M' || c3 = 'm') &&
      (match prev with
       | none => true
       | some p => !(isWordChar p)) &&
      (match rest with
       | [] => true
       | d :: _ => !(isWordChar d))
  | _ => false

/-- Index of the first `\bREM\b` match in the line, as `RegExp.exec` finds it:
a left-to-right scan over the RAW line, with no awareness of string literals. -/
def remIndexAux (cs : List Char) (prev : Option Char) (i : Nat) : Option Nat :=
  match cs with
  | [] => none
  | c :: rest =>
    if remHere (c :: rest) prev then some i
    else remIndexAux rest (some c) (i + 1)

def remMatchIndex (line : List Char) : Option Nat :=
  remIndexAux line none 0

/-- `stripComments(line)`: the comment index is the first apostrophe outside a
string (string-aware), lowered to the first whole-line `\bREM\b` match when
that match comes earlier — the `REM` search ignores string literals. -/
def stripComments (line : List Char) : List Char :=
  let commentIndex := (apoIndexAux line.length line 0 false).getD line.length
  let commentIndex :=
    match remMatchIndex line with
    | some r => if r < commentIndex then r else commentIndex
    | none => commentIndex
  line.take commentIndex

/-- `parseIntegerLiteral(text)`: `/^\d+$/` then `parseInt` (the literals the
validators range-check are small, so `Nat` is exact). -/
def parseIntegerLiteral (text : List Char) : Option Nat :=
  if text ≠ [] ∧ text.all Char.isDigit then
    some (text.foldl (fun n c => n * 10 + (c.toNat - 48)) 0)
  else none

/-- `skipWhitespace(line, index)`. -/
def skipWhitespace (line : List Char) (index : Nat) : Nat :=
  index + ((line.drop index).takeWhile isSpaceJS).length

/-- `String.prototype.trim` on ASCII text. -/
def trimChars (cs : List Char) : List Char :=
  ((cs.dropWhile isSpaceJS).reverse.dropWhile isSpaceJS).reverse

/-- Result of `parseIdentifier` (source fields `name`, `start`, `end`; the
last is renamed `stop`). -/
structure IdentMatch where
  name : String
  start : Nat
  stop : Nat
deriving Repr, DecidableEq

/-- `parseIdentifier(line, startIndex)`: `/^[A-Za-z_][A-Za-z0-9_]*/` against
the suffix, keeping the original casing. -/
def parseIdentifier (line : List Char) (startIndex : Nat) : Option IdentMatch :=
  match line.drop startIndex with
  | [] => none
  | c :: rest =>
    if isAlphaUnd c then
      let p := wordSplit (c :: rest)
      some { name := String.mk p.1, start := startIndex, stop := startIndex + p.1.length }
    else none

/-- `findTopLevelComma`'s scan: `i` is the absolute index of the head of `cs`;
`)` at depth 0 stays at depth 0 (`Nat` subtraction is JS `Math.max(0, d-1)`). -/
def findTopLevelCommaAux (fuel : Nat) (cs : List Char) (i depth : Nat)
    (inString : Bool) : Option Nat :=
  match fuel, cs with
  | 0, _ => none
  | _ + 1, [] => none
  | fuel + 1, c :: rest =>
    if inString then
      if c = '"' then
        match rest with
        | '"' :: rest2 => findTopLevelCommaAux fuel rest2 (i + 2) depth true
        | _ => findTopLevelCommaAux fuel rest (i + 1) depth false
      else findTopLevelCommaAux fuel rest (i + 1) depth true
    else
      if c = '"' then findTopLevelCommaAux fuel rest (i + 1) depth true
      else if c = '(' then findTopLevelCommaAux fuel rest (i + 1) (depth + 1) false
      else if c = ')' then findTopLevelCommaAux fuel rest (i + 1) (depth - 1) false
      else if c = ',' ∧ depth = 0 then some i
      else findTopLevelCommaAux fuel rest (i + 1) depth false

/-- `findTopLevelComma(line, startIndex)`. -/
def findTopLevelComma (line : List Char) (startIndex : Nat) : Option Nat :=
  findTopLevelCommaAux line.length (line.drop startIndex) startIndex 0 false

/-- `findMatchingParen`'s scan from one past the opening parenthesis. -/
def findMatchingParenAux (fuel : Nat) (cs : List Char) (i depth : Nat)
    (inString : Bool) : Option Nat :=
  match fuel, cs with
  | 0, _ => none
  | _ + 1, [] => none
  | fuel + 1, c :: rest =>
    if inString then
      if c = '"' then
        match rest with
        | '"' :: rest2 => findMatchingParenAux fuel rest2 (i + 2) depth true
        | _ => findMatchingParenAux fuel rest (i + 1) depth false
      else findMatchingParenAux fuel rest (i + 1) depth true
    else
      if c = '"' then findMatchingParenAux fuel rest (i + 1) depth true
      else if c = '(' then findMatchingParenAux fuel rest (i + 1) (depth + 1) false
      else if c = ')' then
        if depth = 0 then some i
        else findMatchingParenAux fuel rest (i + 1) (depth - 1) false
      else findMatchingParenAux fuel rest (i + 1) depth false

/-- `findMatchingParen(line, openIndex)`. -/
def findMatchingParen (line : List Char) (openIndex : Nat) : Option Nat :=
  findMatchingParenAux line.length (line.drop (openIndex + 1)) (openIndex + 1) 0 false

/-- The fixed `source` tag of every diagnostic the server produces. -/
def SRC : String := "cubloc-basic"

/-- The keyword-anchored range used by the statement validators (the
introducing keyword's column range). -/
def kwRange (lineNumber : Nat) (keywordToken : Token) : DiagRange :=
  makeRange lineNumber keywordToken.index (keywordToken.index + keywordToken.length)

/-- `validateOutStatement(keywordToken, cleanLine, lineNumber, diagnostics)`.
The operand split uses `remainder.indexOf(",")` — the FIRST comma anywhere in
the remainder, with no awareness of parentheses or string literals. -/
def validateOutStatement (keywordToken : Token) (cleanLine : List Char)
    (lineNumber : Nat) : List Diagnostic :=
  let afterKeyword := cleanLine.drop (keywordToken.index + keywordToken.length)
  let remainder := trimChars afterKeyword
  if remainder = [] then
    [⟨.error, kwRange lineNumber keywordToken, "Out requires port, value.", SRC⟩]
  else
    match remainder.findIdx? (fun c => c = ',') with
    | none =>
      [⟨.error, kwRange lineNumber keywordToken,
        "Out requires port, value (missing comma).", SRC⟩]
    | some commaIndex =>
      let portText := trimChars (remainder.take commaIndex)
      let valueText := trimChars (remainder.drop (commaIndex + 1))
      if portText = [] ∨ valueText = [] then
        [⟨.error, kwRange lineNumber keywordToken, "Out requires port, value.", SRC⟩]
      else
        (match parseIntegerLiteral portText with
         | some portLiteral =>
           if portLiteral < 0 ∨ 255 < portLiteral then
             [⟨.error, kwRange lineNumber keywordToken, "Out port must be 0 to 255.", SRC⟩]
           else []
         | none => []) ++
        (match parseIntegerLiteral valueText with
         | some valueLiteral =>
           if valueLiteral ≠ 0 ∧ valueLiteral ≠ 1 then
             [⟨.error, kwRange lineNumber keywordToken, "Out value must be 0 or 1.", SRC⟩]
           else []
         | none => [])

/-- `validateDebugStatement`. -/
def validateDebugStatement (keywordToken : Token) (cleanLine : List Char)
    (lineNumber : Nat) : List Diagnostic :=
  let remainder := trimChars (cleanLine.drop (keywordToken.index + keywordToken.length))
  if remainder = [] then
    [⟨.error, kwRange lineNumber keywordToken, "Debug requires data.", SRC⟩]
  else []

/-- `validateInputStatement`. -/
def validateInputStatement (keywordToken : Token) (cleanLine : List Char)
    (lineNumber : Nat) : List Diagnostic :=
  let remainder := trimChars (cleanLine.drop (keywordToken.index + keywordToken.length))
  if remainder = [] then
    [⟨.error, kwRange lineNumber keywordToken, "Input requires port value.", SRC⟩]
  else
    match parseIntegerLiteral remainder with
    | some portLiteral =>
      if portLiteral < 0 ∨ 255 < portLiteral then
        [⟨.error, kwRange lineNumber keywordToken, "Input port must be 0 to 255.", SRC⟩]
      else []
    | none => []

/-- `validateOutputStatement`. -/
def validateOutputStatement (keywordToken : Token) (cleanLine : List Char)
    (lineNumber : Nat) : List Diagnostic :=
  let remainder := trimChars (cleanLine.drop (keywordToken.index + keywordToken.length))
  if remainder = [] then
    [⟨.error, kwRange lineNumber keywordToken, "Output requires port value.", SRC⟩]
  else
    match parseIntegerLiteral remainder with
    | some portLiteral =>
      if portLiteral < 0 ∨ 255 < portLiteral then
        [⟨.error, kwRange lineNumber keywordToken, "Output port must be 0 to 255.", SRC⟩]
      else []
    | none => []

/-- `validateDelayStatement`. -/
def validateDelayStatement (keywordToken : Token) (cleanLine : List Char)
    (lineNumber : Nat) : List Diagnostic :=
  let remainder := trimChars (cleanLine.drop (keywordToken.index + keywordToken.length))
  if remainder = [] then
    [⟨.error, kwRange lineNumber keywordToken, "Delay requires milliseconds value.", SRC⟩]
  else
    match parseIntegerLiteral remainder with
    | some literal =>
      -- `literal < 0` mirrors the JS check; a `/^\d+$/` literal is never negative.
      if literal < 0 then
        [⟨.error, kwRange lineNumber keywordToken, "Delay value must be non-negative.", SRC⟩]
      else []
    | none => []

/-- The body of `validateInFunctionUsage`'s per-token loop: the diagnostics
one token contributes (each loop iteration pushes at most one and then
`continue`s). -/
def inUsageCheck (token : Token) (line : List Char) (lineNumber : Nat) :
    List Diagnostic :=
  if token.text ≠ "IN" then []
  else
    let searchStart := token.index + token.length
    let afterToken := line.drop searchStart
    match afterToken.findIdx? (fun c => !(isSpaceJS c)) with
    | none => []
    | some openParenOffset =>
      let openParenIndex := searchStart + openParenOffset
      if charAt line openParenIndex ≠ some '(' then []
      else
        match findMatchingParen line openParenIndex with
        | none =>
          [⟨.error, kwRange lineNumber token, "In requires a closing parenthesis.", SRC⟩]
        | some closeParenIndex =>
          let argument :=
            trimChars ((line.drop (openParenIndex + 1)).take
              (closeParenIndex - (openParenIndex + 1)))
          if argument = [] then
            [⟨.error, kwRange lineNumber token, "In requires a port value.", SRC⟩]
          else
            match parseIntegerLiteral argument with
            | some portLiteral =>
              if portLiteral < 0 ∨ 255 < portLiteral then
                [⟨.error, kwRange lineNumber token, "In port must be 0 to 255.", SRC⟩]
              else []
            | none => []

/-- `validateInFunctionUsage(tokens, line, lineNumber, diagnostics)`: the
`IN(...)` shape check over every token of the line. -/
def validateInFunctionUsage (tokens : List Token) (line : List Char)
    (lineNumber : Nat) : List Diagnostic :=
  match tokens with
  | [] => []
  | token :: rest =>
    inUsageCheck token line lineNumber ++ validateInFunctionUsage rest line lineNumber

/-- The `/^\s*AS\b/i` match of `validateDimStatement`: the matched length
(leading whitespace plus the two letters) or `none`. -/
def asMatchLen (line : List Char) (cursor : Nat) : Option Nat :=
  let rem := line.drop cursor
  let ws := (rem.takeWhile isSpaceJS).length
  match rem.drop ws with
  | a :: s :: rest =>
    let boundary : Bool :=
      match rest with
      | [] => true
      | d :: _ => !(isWordChar d)
    if (a = 'A' ∨ a = 'a') ∧ (s = 'S' ∨ s = 's') ∧ boundary = true then
      some (ws + 2)
    else none
  | _ => none

/-- The tail of `validateDimStatement` from the `AS` keyword on (split out of
the single JS function for readability; `cursor` is the scan position after
the declared name and optional dimension list). -/
def validateDimAfterName (keywordToken : Token) (line : List Char)
    (lineNumber : Nat) (cursor : Nat) : List Diagnostic :=
  match asMatchLen line cursor with
  | none =>
    [⟨.error, kwRange lineNumber keywordToken, "Dim requires As <Type>.", SRC⟩]
  | some asLen =>
    let cursor := skipWhitespace line (cursor + asLen)
    match parseIdentifier line cursor with
    | none =>
      [⟨.error, makeRange lineNumber cursor (cursor + 1), "Dim As requires Type.", SRC⟩]
    | some typeIdentifier =>
      let type := typeIdentifier.name.toUpper
      if type ∉ ["BYTE", "INTEGER", "LONG", "SINGLE", "STRING"] then
        [⟨.error, makeRange lineNumber typeIdentifier.start typeIdentifier.stop,
          "Invalid Dim Type.", SRC⟩]
      else
        let cursor := skipWhitespace line typeIdentifier.stop
        if charAt line cursor = some '*' then
          if type ≠ "STRING" then
            [⟨.error, makeRange lineNumber cursor (cursor + 1),
              "Only String may use * length.", SRC⟩]
          else
            let cursor2 := skipWhitespace line (cursor + 1)
            match parseIdentifier line cursor2 with
            | none =>
              [⟨.error, makeRange lineNumber cursor2 (cursor2 + 1),
                "String length required after *.", SRC⟩]
            | some lengthIdentifier =>
              match parseIntegerLiteral ((line.drop lengthIdentifier.start).take
                  (lengthIdentifier.stop - lengthIdentifier.start)) with
              | none =>
                [⟨.error,
                  makeRange lineNumber lengthIdentifier.start lengthIdentifier.stop,
                  "String length must be a number.", SRC⟩]
              | some _ => []
        else []

/-- `validateDimStatement(keywordToken, line, lineNumber, diagnostics)`. -/
def validateDimStatement (keywordToken : Token) (line : List Char)
    (lineNumber : Nat) : List Diagnostic :=
  let startIndex := keywordToken.index + keywordToken.length
  match findTopLevelComma line startIndex with
  | some _ =>
    [⟨.error, kwRange lineNumber keywordToken,
      "Dim does not allow multiple declarations.", SRC⟩]
  | none =>
    let cursor := skipWhitespace line startIndex
    if line.length ≤ cursor then
      [⟨.error, kwRange lineNumber keywordToken, "Dim requires variable name.", SRC⟩]
    else
      match parseIdentifier line cursor with
      | none =>
        [⟨.error, makeRange lineNumber cursor (cursor + 1),
          "Dim requires variable name.", SRC⟩]
      | some identifier =>
        let cursor := skipWhitespace line identifier.stop
        if charAt line cursor = some '(' then
          match findMatchingParen line cursor with
          | none =>
            [⟨.error, makeRange lineNumber cursor (cursor + 1),
              "Dim array requires closing parenthesis.", SRC⟩]
          | some closeParen =>
            validateDimAfterName keywordToken line lineNumber (closeParen + 1)
        else validateDimAfterName keywordToken line lineNumber cursor

/-- The WHILE/UNTIL scan of `parseLoopCondition`: the JS loop overwrites its
variable on every hit, so it keeps the LAST token with the given text. -/
def lastTokenWithText (tokens : List Token) (txt : String) : Option Token :=
  tokens.foldl (fun acc t => if t.text = txt then some t else acc) none

/-- `parseLoopCondition(tokens, startIndex, endIndex, lineNumber, diagnostics,
context)`.  Every call site passes `startIndex = 1` and `endIndex =
tokens.length`, so the scanned slice is `tokens.drop 1`; `tokens[endIndex-1]`
is the line's last token.  Returns the appended diagnostics and the JS return
value (`none` models returning `null`). -/
def parseLoopCondition (tokens : List Token) (lineNumber : Nat)
    (context : String) : List Diagnostic × Option LoopCond :=
  let immediate := tokens.get? 1
  let immediateIsWhile : Bool :=
    match immediate with
    | some t => t.text = "WHILE" || t.text = "UNTIL"
    | none => false
  let whileToken := lastTokenWithText (tokens.drop 1) "WHILE"
  let untilToken := lastTokenWithText (tokens.drop 1) "UNTIL"
  if immediateIsWhile = false ∧ (whileToken.isSome ∨ untilToken.isSome) then
    match whileToken <|> untilToken with
    | some misplaced =>
      ([⟨.error, makeRange lineNumber misplaced.index (misplaced.index + misplaced.length),
         formatKeyword context ++ " While/Until must immediately follow " ++
           formatKeyword context ++ ".", SRC⟩],
       some ⟨"MISPLACED", true⟩)
    | none => ([], some ⟨"MISPLACED", true⟩)  -- unreachable: the guard forces a token
  else if whileToken.isSome ∧ untilToken.isSome then
    match whileToken, untilToken with
    | some w, some u =>
      ([⟨.error, makeRange lineNumber (min w.index u.index)
          (max (w.index + w.length) (u.index + u.length)),
         formatKeyword context ++ " cannot use both While and Until.", SRC⟩],
       some ⟨"BOTH", true⟩)
    | _, _ => ([], some ⟨"BOTH", true⟩)  -- unreachable: the guard forces both
  else
    let token := if immediateIsWhile then immediate else whileToken <|> untilToken
    match token with
    | none => ([], none)
    | some token =>
      if (tokens.getLast?).map Token.index = some token.index then
        ([⟨.error, makeRange lineNumber token.index (token.index + token.length),
           formatKeyword context ++ " " ++ formatKeyword token.text ++
             " requires a condition.", SRC⟩],
         some ⟨token.text, true⟩)
      else ([], some ⟨token.text, false⟩)

/-- `pushBlock(stack, type, token, lineNumber)`: returns the entry and the new
stack (top-first, so JS `push` is `cons`). -/
def pushBlock (stack : List BlockEntry) (type : String) (token : Token)
    (lineNumber : Nat) : BlockEntry × List BlockEntry :=
  let entry : BlockEntry :=
    { type := type, line := lineNumber, character := token.index, length := token.length }
  (entry, entry :: stack)

/-- `findOpenBlock(stack, type)`: the JS function scans from the top and
returns a bottom-first array index (or -1); here the stack is head-first from
the top, so the equivalent result is the TOP-relative index of the nearest
frame of the kind (or `none`).  A JS bottom-first index `m` into a stack of
`n` frames corresponds to the top-relative index `n - 1 - m`. -/
def findOpenBlock (stack : List BlockEntry) (type : String) : Option Nat :=
  stack.findIdx? (fun e => e.type = type)

/-- `hasOpenBlock(stack, type)`. -/
def hasOpenBlock (stack : List BlockEntry) (type : String) : Bool :=
  (findOpenBlock stack type).isSome

/-- `popBlock(stack, type, token, lineNumber, diagnostics)`.  On the recovery
path, JS runs `stack.length = matchIndex` — with a bottom-first `matchIndex`
this discards the matched frame and everything above it, i.e.
`List.drop (matchIndex + 1)` top-first — and then `stack.pop()`, which
discards ONE MORE frame (the one just below the match; a no-op on an empty
array), modelled by the extra `List.drop 1`. -/
def popBlock (stack : List BlockEntry) (type : String) (token : Token)
    (lineNumber : Nat) : List Diagnostic × List BlockEntry :=
  match stack with
  | [] =>
    ([⟨.error, kwRange lineNumber token,
       formatKeyword token.text ++ " without matching " ++ formatKeyword type ++ ".",
       SRC⟩], [])
  | top :: rest =>
    if top.type = type then ([], rest)
    else
      match findOpenBlock (top :: rest) type with
      | none =>
        ([⟨.error, kwRange lineNumber token,
           formatKeyword token.text ++ " without matching " ++ formatKeyword type ++ ".",
           SRC⟩], top :: rest)
      | some matchIndex =>
        let missingDiags := ((top :: rest).take matchIndex).map fun missing =>
          (⟨.error, makeRange missing.line missing.character
              (missing.character + missing.length),
            "Missing " ++ (BLOCK_ENDINGS missing.type).getD "End" ++ " before " ++
              formatKeyword token.text ++ ".", SRC⟩ : Diagnostic)
        (missingDiags, (((top :: rest).drop (matchIndex + 1)).drop 1))

/-- `popDoBlock(stack, token, lineNumber, diagnostics, condition)`.  Unlike
`popBlock` there is no top-of-stack fast path, and after the truncation plus
the extra `stack.pop()` the matched DO frame's saved condition metadata is
checked against the LOOP's own condition. -/
def popDoBlock (stack : List BlockEntry) (token : Token) (lineNumber : Nat)
    (condition : Option LoopCond) : List Diagnostic × List BlockEntry :=
  match stack with
  | [] =>
    ([⟨.error, kwRange lineNumber token, "Loop without matching Do.", SRC⟩], [])
  | _ :: _ =>
    match findOpenBlock stack "DO" with
    | none =>
      ([⟨.error, kwRange lineNumber token, "Loop without matching Do.", SRC⟩], stack)
    | some matchIndex =>
      let missingDiags := (stack.take matchIndex).map fun missing =>
        (⟨.error, makeRange missing.line missing.character
            (missing.character + missing.length),
          "Missing " ++ (BLOCK_ENDINGS missing.type).getD "End" ++ " before Loop.",
          SRC⟩ : Diagnostic)
      let doBlock := stack.get? matchIndex
      let newStack := ((stack.drop (matchIndex + 1)).drop 1)
      let condDiags :=
        match condition, doBlock with
        | some _, some b =>
          if b.conditionPlacement = some "do" then
            [⟨.error, kwRange lineNumber token,
              "Loop cannot include a condition when Do already has While/Until.", SRC⟩]
          else []
        | _, _ => []
      (missingDiags ++ condDiags, newStack)

/-- `handleDoLine(tokens, lineNumber, diagnostics, stack)`: parse the DO
line's condition; a malformed condition (`missingExpression`) returns before
any push; otherwise push a DO frame, attaching the condition metadata when a
condition is present. -/
def handleDoLine (tokens : List Token) (lineNumber : Nat)
    (stack : List BlockEntry) : List Diagnostic × List BlockEntry :=
  match tokens with
  | [] => ([], stack)  -- never reached: callers pass token lists headed by DO
  | t0 :: _ =>
    let (condDiags, condition) := parseLoopCondition tokens lineNumber "DO"
    if condition.any (fun c => c.missingExpression) then (condDiags, stack)
    else
      match condition with
      | some c =>
        let entry := (pushBlock stack "DO" t0 lineNumber).1
        (condDiags,
         { entry with conditionPlacement := some "do", conditionKind := some c.kind } ::
           stack)
      | none => (condDiags, (pushBlock stack "DO" t0 lineNumber).2)

/-- `handleLoopLine(tokens, lineNumber, diagnostics, stack)`: parse the LOOP
line's condition; a malformed condition returns before any pop; otherwise pop
the nearest DO frame via `popDoBlock`. -/
def handleLoopLine (tokens : List Token) (lineNumber : Nat)
    (stack : List BlockEntry) : List Diagnostic × List BlockEntry :=
  match tokens with
  | [] => ([], stack)  -- never reached: callers pass token lists headed by LOOP
  | t0 :: _ =>
    let (condDiags, condition) := parseLoopCondition tokens lineNumber "LOOP"
    if condition.any (fun c => c.missingExpression) then (condDiags, stack)
    else
      let (popDiags, stack') := popDoBlock stack t0 lineNumber condition
      (condDiags ++ popDiags, stack')

/-- `validateSyntaxLine(tokens, lineNumber, line, diagnostics, stack)`: the
first-token dispatch.  Block-structure branches `return` early in JS; lines
that reach past them run the keyword-matched statement validator (at most one
fires) and then `validateInFunctionUsage`, with the stack untouched. -/
def validateSyntaxLine (tokens : List Token) (lineNumber : Nat)
    (line : List Char) (stack : List BlockEntry) :
    List Diagnostic × List BlockEntry :=
  match tokens with
  | [] => ([], stack)  -- never reached: the caller requires tokens.length > 0
  | t0 :: _ =>
    let first := t0.text
    let second := (tokens.get? 1).map Token.text
    let cleanLine := stripComments line
    let stmtDiags : List Diagnostic :=
      (if first = "OUT" then validateOutStatement t0 cleanLine lineNumber else []) ++
      (if first = "DEBUG" then validateDebugStatement t0 cleanLine lineNumber else []) ++
      (if first = "INPUT" then validateInputStatement t0 cleanLine lineNumber else []) ++
      (if first = "OUTPUT" then validateOutputStatement t0 cleanLine lineNumber else []) ++
      (if first = "DELAY" then validateDelayStatement t0 cleanLine lineNumber else []) ++
      (if first = "DIM" then validateDimStatement t0 cleanLine lineNumber else [])
    let fallback : List Diagnostic × List BlockEntry :=
      (stmtDiags ++ validateInFunctionUsage tokens cleanLine lineNumber, stack)
    if first = "IF" then
      match tokens.findIdx? (fun t => t.text = "THEN") with
      | none =>
        ([⟨.error, kwRange lineNumber t0, "If without Then.", SRC⟩], stack)
      | some thenIndex =>
        if thenIndex = tokens.length - 1 then
          ([], (pushBlock stack "IF" t0 lineNumber).2)
        else ([], stack)
    else if first = "ELSEIF" ∨ (first = "ELSE" ∧ second = some "IF") then
      (if hasOpenBlock stack "IF" then []
       else [⟨.error, kwRange lineNumber t0, "ElseIf without matching If.", SRC⟩],
       stack)
    else if first = "ELSE" then
      (if hasOpenBlock stack "IF" then []
       else [⟨.error, kwRange lineNumber t0, "Else without matching If.", SRC⟩],
       stack)
    else if first = "ENDIF" ∨ (first = "END" ∧ second = some "IF") then
      popBlock stack "IF" t0 lineNumber
    else if first = "FOR" then
      ([], (pushBlock stack "FOR" t0 lineNumber).2)
    else if first = "NEXT" then
      popBlock stack "FOR" t0 lineNumber
    else if first = "DO" then
      match tokens.findIdx? (fun t => t.text = "LOOP") with
      | some loopIndex =>
        let doTokens := tokens.take loopIndex
        let loopTokens := tokens.drop loopIndex
        let (doDiags, stack1) := handleDoLine doTokens lineNumber stack
        let (loopDiags, stack2) := handleLoopLine loopTokens lineNumber stack1
        (doDiags ++ loopDiags, stack2)
      | none => handleDoLine tokens lineNumber stack
    else if first = "LOOP" then
      handleLoopLine tokens lineNumber stack
    else if first = "WHILE" then
      ([], (pushBlock stack "WHILE" t0 lineNumber).2)
    else if first = "WEND" then
      popBlock stack "WHILE" t0 lineNumber
    else if first = "SUB" then
      ([], (pushBlock stack "SUB" t0 lineNumber).2)
    else if first = "FUNCTION" then
      ([], (pushBlock stack "FUNCTION" t0 lineNumber).2)
    else if first = "TYPE" then
      ([], (pushBlock stack "TYPE" t0 lineNumber).2)
    else if first = "WITH" then
      ([], (pushBlock stack "WITH" t0 lineNumber).2)
    else if first = "SELECT" then
      ([], (pushBlock stack "SELECT" t0 lineNumber).2)
    else if first = "END" then
      if second = some "SUB" then popBlock stack "SUB" t0 lineNumber
      else if second = some "FUNCTION" then popBlock stack "FUNCTION" t0 lineNumber
      else if second = some "SELECT" then popBlock stack "SELECT" t0 lineNumber
      else if second = some "TYPE" then popBlock stack "TYPE" t0 lineNumber
      else if second = some "WITH" then popBlock stack "WITH" t0 lineNumber
      else fallback
    else fallback

/-- `text.split(/\r?\n/)`: split at `\n` or `\r\n`; a lone `\r` is not a
separator. -/
def splitLinesAux (cs : List Char) (acc : List Char) : List (List Char) :=
  match cs with
  | [] => [acc.reverse]
  | '\r' :: '\n' :: rest => acc.reverse :: splitLinesAux rest []
  | '\n' :: rest => acc.reverse :: splitLinesAux rest []
  | c :: rest => splitLinesAux rest (c :: acc)

def splitLines (text : List Char) : List (List Char) :=
  splitLinesAux text []

/-- One iteration of `validateText`'s per-line loop: the two hygiene checks
(line over 120 columns; first tab character), then `validateSyntaxLine` when
the line has tokens. -/
def validateTextLine (lineNumber : Nat) (line : List Char)
    (stack : List BlockEntry) : List Diagnostic × List BlockEntry :=
  let hygiene :=
    (if 120 < line.length then
      [⟨.warning, makeRange lineNumber 120 line.length,
        "Line exceeds 120 characters.", SRC⟩]
     else []) ++
    (match line.findIdx? (fun c => c = '\t') with
     | some tabIndex =>
       [⟨.information, makeRange lineNumber tabIndex (tabIndex + 1),
         "Tab character found; prefer spaces.", SRC⟩]
     | none => [])
  let tokens := getTokens line
  let (lineDiags, stack') :=
    if 0 < tokens.length then validateSyntaxLine tokens lineNumber line stack
    else ([], stack)
  (hygiene ++ lineDiags, stack')

/-- `validateText`'s loop over all lines, threading the block stack. -/
def validateTextLines (lines : List (List Char)) (lineNumber : Nat)
    (stack : List BlockEntry) : List Diagnostic × List BlockEntry :=
  match lines with
  | [] => ([], stack)
  | line :: rest =>
    let (lineDiags, stack') := validateTextLine lineNumber line stack
    let (restDiags, finalStack) := validateTextLines rest (lineNumber + 1) stack'
    (lineDiags ++ restDiags, finalStack)

/-- The end-of-document drain of `validateText`: `while (stack.length > 0)`
pops from the top, so the diagnostics come innermost-first (head-first). -/
def drainStack (stack : List BlockEntry) : List Diagnostic :=
  stack.map fun ob =>
    (⟨.error, makeRange ob.line ob.character (ob.character + ob.length),
      "Missing " ++ (BLOCK_ENDINGS ob.type).getD "End" ++ " for " ++
        formatKeyword ob.type ++ ".", SRC⟩ : Diagnostic)

/-- `validateText(uri, text)` without the transport: the diagnostic list the
server computes from the full document text and sends for that document. -/
def validateText (text : String) : List Diagnostic :=
  let lines := splitLines text.toList
  let (diagnostics, stack) := validateTextLines lines 0 []
  diagnostics ++ drainStack stack

/-- `documents.set(uri, text)` on the server's per-document text cache: JS
`Map.set` replaces an existing key's value in place and otherwise appends in
insertion order. -/
def documentsSet (documents : List (String × String)) (uri text : String) :
    List (String × String) :=
  match documents with
  | [] => [(uri, text)]
  | p :: rest =>
    if p.1 = uri then (uri, text) :: rest
    else p :: documentsSet rest uri text

/-- The `onDidChangeTextDocument` handler's effect: update the text cache and
recompute the document's full diagnostic list from the new text alone. -/
def onDidChangeTextDocument (documents : List (String × String))
    (uri text : String) : List (String × String) × List Diagnostic :=
  (documentsSet documents uri text, validateText text)

/-! ### Shared lemmas about the embedded operations -/

theorem mem_validateInFunctionUsage {d : Diagnostic} {t : Token}
    (tokens : List Token) (line : List Char) (lineNumber : Nat)
    (ht : t ∈ tokens) (hd : d ∈ inUsageCheck t line lineNumber) :
    d ∈ validateInFunctionUsage tokens line lineNumber := by
  induction tokens with
  | nil => cases ht
  | cons a as ih =>
    rcases List.mem_cons.mp ht with rfl | hmem
    · exact List.mem_append_left _ hd
    · exact List.mem_append_right _ (ih hmem)

theorem lastTokenWithText_foldl_frozen (ts : List Token) (txt : String)
    (a : Option Token) (h : ∀ x ∈ ts, x.text ≠ txt) :
    ts.foldl (fun acc t => if t.text = txt then some t else acc) a = a := by
  induction ts generalizing a with
  | nil => rfl
  | cons x xs ih =>
    have hx : x.text ≠ txt := (h x (List.mem_cons_self x xs))
    simp only [List.foldl_cons, if_neg hx]
    exact ih a fun y hy => h y (List.mem_cons_of_mem x hy)

theorem lastTokenWithText_cons_self (w : Token) (rest : List Token) (txt : String)
    (hw : w.text = txt) (h : ∀ x ∈ rest, x.text ≠ txt) :
    lastTokenWithText (w :: rest) txt = some w := by
  simp only [lastTokenWithText, List.foldl_cons, if_pos hw]
  exact lastTokenWithText_foldl_frozen rest txt (some w) h

theorem lastTokenWithText_cons_none (w : Token) (rest : List Token) (txt : String)
    (hw : w.text ≠ txt) (h : ∀ x ∈ rest, x.text ≠ txt) :
    lastTokenWithText (w :: rest) txt = none := by
  simp only [lastTokenWithText, List.foldl_cons, if_neg hw]
  exact lastTokenWithText_foldl_frozen rest txt none h

theorem findIdx?_append_cons_found (p : BlockEntry → Bool) (above : List BlockEntry)
    (frame : BlockEntry) (rest : List BlockEntry) (i : Nat)
    (h : ∀ e ∈ above, p e = false) (hf : p frame = true) :
    List.findIdx? p (above ++ frame :: rest) i = some (i + above.length) := by
  induction above generalizing i with
  | nil => simp [List.findIdx?_cons, hf]
  | cons a as ih =>
    have ha : p a = false := h a (List.mem_cons_self a as)
    simp only [List.cons_append, List.findIdx?_cons, ha, Bool.false_eq_true, if_false]
    rw [ih (i + 1) fun e he => h e (List.mem_cons_of_mem a he)]
    simp [Nat.add_comm, Nat.add_assoc, Nat.add_left_comm]

theorem findOpenBlock_append_cons (above : List BlockEntry) (frame : BlockEntry)
    (rest : List BlockEntry) (type : String)
    (h : ∀ e ∈ above, e.type ≠ type) (hf : frame.type = type) :
    findOpenBlock (above ++ frame :: rest) type = some above.length := by
  unfold findOpenBlock
  have := findIdx?_append_cons_found (fun e => e.type = type) above frame rest 0
    (fun e he => by simp [h e he]) (by simp [hf])
  simpa using this

theorem drop_append_cons (above : List BlockEntry) (frame : BlockEntry)
    (rest : List BlockEntry) :
    (above ++ frame :: rest).drop (above.length + 1) = rest := by
  have h := List.drop_left (above ++ [frame]) rest
  have hl : (above ++ [frame]).length = above.length + 1 := by simp
  rw [hl] at h
  simpa [List.append_assoc] using h

theorem get?_append_cons (above : List BlockEntry) (frame : BlockEntry)
    (rest : List BlockEntry) :
    (above ++ frame :: rest).get? above.length = some frame := by
  rw [List.get?_append_right (Nat.le_refl _)]
  simp

theorem documentsSet_idem (documents : List (String × String)) (uri text : String) :
    documentsSet (documentsSet documents uri text) uri text =
      documentsSet documents uri text := by
  induction documents with
  | nil => simp [documentsSet]
  | cons p rest ih =>
    by_cases hp : p.1 = uri
    · simp [documentsSet, hp]
    · simp [documentsSet, hp, ih]

/-! ### The claims -/

/-- C1: the claim says that when a closer matches a frame at depth `d` with
frames above it, the stack truncation discards exactly the matched frame and
everything above it, every frame strictly below depth `d` remaining.  The code
instead runs `stack.length = matchIndex; stack.pop()`, whose extra `pop` also
discards the frame directly below the match.  Evaluating the pass on
`SUB A / SUB B / FOR i / END SUB / END SUB`: the first `END SUB` matches the
inner `SUB B` (one frame, `FOR`, above it), and the outer `SUB A` frame is
wrongly discarded too, so the second `END SUB` reports a spurious
`End without matching Sub.` instead of closing it silently. -/
theorem C1_truncation_bug_eval :
    validateText "SUB A\nSUB B\nFOR i\nEND SUB\nEND SUB" =
      [⟨.error, makeRange 2 0 3, "Missing Next before End.", SRC⟩,
       ⟨.error, makeRange 4 0 3, "End without matching Sub.", SRC⟩] := by
  decide

/-- C2 counterexample: the claim says the `IN(...)` shape check runs for every
occurrence of the token `IN` on a line, independent of the line's first token.
On `FOR i = IN(` the token `IN` is followed by `(` with no matching close
paren, yet the pass emits no `In requires a closing parenthesis.` diagnostic
at all — the `FOR` branch of the dispatcher returns before
`validateInFunctionUsage` runs (the only diagnostic is the end-of-document
drain of the pushed FOR frame). -/
theorem C2_counterexample :
    getTokens "FOR i = IN(".toList =
      [⟨"FOR", 0, 3⟩, ⟨"I", 4, 1⟩, ⟨"IN", 8, 2⟩] ∧
    findMatchingParen (stripComments "FOR i = IN(".toList) 10 = none ∧
    validateText "FOR i = IN(" =
      [⟨.error, makeRange 0 0 3, "Missing Next for For.", SRC⟩] := by
  refine ⟨by decide, by decide, by decide⟩

/-- C3 counterexample: the claim says a comment marker inside a string literal
never starts a comment, so the text after it is still validated.  On
`OUT "REM", 300` the word `REM` sits inside a string literal, yet
`stripComments` truncates the line at it, so the OUT validator sees only
`OUT "` and reports a missing comma — instead of validating `300` (whose
bare-literal value would yield `Out value must be 0 or 1.`). -/
theorem C3_counterexample :
    stripComments "OUT \"REM\", 300".toList = "OUT \"".toList ∧
    validateText "OUT \"REM\", 300" =
      [⟨.error, makeRange 0 0 3, "Out requires port, value (missing comma).", SRC⟩] := by
  refine ⟨by decide, by decide⟩

/-- C3 amended: the comment-stripped remainder is a prefix (a `take`) of the
line; stripping is string-literal-aware for APOSTROPHE markers only (an
apostrophe inside a string literal does not start a comment), while the word
`REM` is found by a whole-line word search that ignores string context, so a
`REM` inside a string literal does start a comment there. -/
theorem C3_stripComments_amended (line : List Char) :
    (∃ k, stripComments line = line.take k) ∧
    stripComments "PRINT \"a'b\" + x".toList = "PRINT \"a'b\" + x".toList ∧
    stripComments "PRINT 'c".toList = "PRINT ".toList ∧
    stripComments "DEBUG \"a REM b\" + x".toList = "DEBUG \"a ".toList := by
  refine ⟨⟨_, rfl⟩, by decide, by decide, by decide⟩

/-- C4 counterexample: the claim says the two OUT operands must be separated
by a TOP-LEVEL comma, a comma nested inside parentheses not counting, and
that the absence of a top-level comma yields the missing-comma error.  On
`OUT f(1,2)` the remainder has no top-level comma, yet the pass emits no
diagnostic at all: the code splits at `remainder.indexOf(",")` — the comma
inside the parentheses — and both resulting operand texts are non-literals
that pass unchecked. -/
theorem C4_counterexample :
    findTopLevelComma (stripComments "OUT f(1,2)".toList) 3 = none ∧
    validateText "OUT f(1,2)" = [] := by
  refine ⟨by decide, by decide⟩

/-- C5 counterexample: the claim says that when any condition text follows
the WHILE/UNTIL keyword — including text that lexes to no identifier token,
such as `5 > 3` — no `requires a condition` error is produced.  On
`DO WHILE 5 > 3` the text `5 > 3` follows the keyword, but it produces no
token, so `WHILE` is the line's last token and the error IS emitted (and the
malformed DO pushes no frame). -/
theorem C5_counterexample :
    getTokens "DO WHILE 5 > 3".toList = [⟨"DO", 0, 2⟩, ⟨"WHILE", 3, 5⟩] ∧
    validateText "DO WHILE 5 > 3" =
      [⟨.error, makeRange 0 3 8, "Do While requires a condition.", SRC⟩] := by
  refine ⟨by decide, by decide⟩

/-- C9: a validation pass is a pure function of the document text alone, so
re-processing an identical text produces the identical diagnostic list (same
diagnostics, ranges, severities, messages, sources, in the same order), and
the only cross-pass state — the per-document text cache — is unchanged by the
repeated identical update. -/
theorem C9_pass_deterministic (documents : List (String × String))
    (uri text : String) :
    (onDidChangeTextDocument (onDidChangeTextDocument documents uri text).1
        uri text).2 =
      (onDidChangeTextDocument documents uri text).2 ∧
    (onDidChangeTextDocument (onDidChangeTextDocument documents uri text).1
        uri text).1 =
      (onDidChangeTextDocument documents uri text).1 := by
  refine ⟨rfl, ?_⟩
  simpa [onDidChangeTextDocument] using documentsSet_idem documents uri text

/-- C6: a closer processed while the stack is empty, or while no frame of the
expected kind exists anywhere in it, emits exactly one
`<closer> without matching <kind>` diagnostic and leaves the block stack
exactly as it was (`findOpenBlock _ _ = none` covers both the empty stack and
the kind-not-found case); likewise for `LOOP` via `popDoBlock`. -/
theorem C6_stray_closer_no_effect :
    (∀ (stack : List BlockEntry) (type : String) (token : Token) (lineNumber : Nat),
      findOpenBlock stack type = none →
        popBlock stack type token lineNumber =
          ([⟨.error, kwRange lineNumber token,
             formatKeyword token.text ++ " without matching " ++
               formatKeyword type ++ ".", SRC⟩], stack)) ∧
    (∀ (stack : List BlockEntry) (token : Token) (lineNumber : Nat)
        (condition : Option LoopCond),
      findOpenBlock stack "DO" = none →
        popDoBlock stack token lineNumber condition =
          ([⟨.error, kwRange lineNumber token, "Loop without matching Do.", SRC⟩],
           stack)) := by
  constructor
  · intro stack type token lineNumber h
    cases stack with
    | nil => simp [popBlock]
    | cons top rest =>
      have htop : ¬ top.type = type := by
        intro he
        rw [show findOpenBlock (top :: rest) type = some 0 by
          simp [findOpenBlock, List.findIdx?_cons, he]] at h
        cases h
      simp [popBlock, htop, h]
  · intro stack token lineNumber condition h
    cases stack with
    | nil => simp [popDoBlock]
    | cons top rest => simp [popDoBlock, h]

/-- C6 witness: an `ENDIF` on an empty stack, and a `LOOP` over a stack whose
only frame is a FOR. -/
theorem C6_stray_closer_witness :
    findOpenBlock [] "IF" = none ∧
    popBlock [] "IF" ⟨"ENDIF", 0, 5⟩ 0 =
      ([⟨.error, kwRange 0 ⟨"ENDIF", 0, 5⟩,
         formatKeyword (Token.text ⟨"ENDIF", 0, 5⟩) ++ " without matching " ++
           formatKeyword "IF" ++ ".", SRC⟩], []) ∧
    findOpenBlock [⟨"FOR", 0, 0, 3, none, none⟩] "DO" = none ∧
    popDoBlock [⟨"FOR", 0, 0, 3, none, none⟩] ⟨"LOOP", 0, 4⟩ 1 none =
      ([⟨.error, kwRange 1 ⟨"LOOP", 0, 4⟩, "Loop without matching Do.", SRC⟩],
       [⟨"FOR", 0, 0, 3, none, none⟩]) :=
  ⟨by decide,
   C6_stray_closer_no_effect.1 [] "IF" ⟨"ENDIF", 0, 5⟩ 0 (by decide),
   by decide,
   C6_stray_closer_no_effect.2 [⟨"FOR", 0, 0, 3, none, none⟩] ⟨"LOOP", 0, 4⟩ 1 none
     (by decide)⟩

/-- C10: a DO or LOOP line whose WHILE/UNTIL clause is diagnosed as malformed
(`missingExpression` set by `parseLoopCondition`) leaves the block stack
unchanged: the malformed DO pushes no frame and the malformed LOOP pops
nothing.  Concretely, in `DO WHILE` / `LOOP` the malformed DO line pushes
nothing, so the LOOP reports `Loop without matching Do.` and the
end-of-document drain reports no missing Loop. -/
theorem C10_malformed_condition_frame (t0 : Token) (ts : List Token)
    (lineNumber : Nat) (stack : List BlockEntry) (ds : List Diagnostic)
    (c : LoopCond) (hc : c.missingExpression = true) :
    (parseLoopCondition (t0 :: ts) lineNumber "DO" = (ds, some c) →
      handleDoLine (t0 :: ts) lineNumber stack = (ds, stack)) ∧
    (parseLoopCondition (t0 :: ts) lineNumber "LOOP" = (ds, some c) →
      handleLoopLine (t0 :: ts) lineNumber stack = (ds, stack)) ∧
    validateText "DO WHILE\nLOOP" =
      [⟨.error, makeRange 0 3 8, "Do While requires a condition.", SRC⟩,
       ⟨.error, makeRange 1 0 4, "Loop without matching Do.", SRC⟩] := by
  refine ⟨?_, ?_, by decide⟩
  · intro h
    simp [handleDoLine, h, hc]
  · intro h
    simp [handleLoopLine, h, hc]

/-- C10 witness: the DO line of `DO WHILE` (its WHILE has no condition). -/
theorem C10_malformed_condition_witness :
    (LoopCond.missingExpression ⟨"WHILE", true⟩ = true) ∧
    (parseLoopCondition [⟨"DO", 0, 2⟩, ⟨"WHILE", 3, 5⟩] 0 "DO" =
      ([⟨.error, makeRange 0 3 8, "Do While requires a condition.", SRC⟩],
       some ⟨"WHILE", true⟩) →
      handleDoLine [⟨"DO", 0, 2⟩, ⟨"WHILE", 3, 5⟩] 0 [] =
        ([⟨.error, makeRange 0 3 8, "Do While requires a condition.", SRC⟩], [])) :=
  ⟨rfl,
   (C10_malformed_condition_frame ⟨"DO", 0, 2⟩ [⟨"WHILE", 3, 5⟩] 0 [] _ _ rfl).1⟩

/-- C4 amended: the two OUT operands are separated by the FIRST comma
anywhere in the remainder (a comma nested inside parentheses or a string
literal counts too); only the absence of ANY comma yields the missing-comma
error.  The range checks stand as claimed: a bare-literal port outside 0–255
yields `Out port must be 0 to 255.` anchored at `OUT`, a bare-literal value
other than 0 or 1 yields `Out value must be 0 or 1.`, non-literal operands
pass unchecked, and `OUT 5, 1` yields no diagnostic. -/
theorem C4_out_statement_amended (keywordToken : Token) (cleanLine : List Char)
    (lineNumber : Nat)
    (h1 : trimChars (cleanLine.drop (keywordToken.index + keywordToken.length)) ≠ [])
    (h2 : (trimChars (cleanLine.drop
        (keywordToken.index + keywordToken.length))).findIdx?
          (fun c => c = ',') = none) :
    validateOutStatement keywordToken cleanLine lineNumber =
      [⟨.error, kwRange lineNumber keywordToken,
        "Out requires port, value (missing comma).", SRC⟩] ∧
    validateText "OUT 300, 1" =
      [⟨.error, makeRange 0 0 3, "Out port must be 0 to 255.", SRC⟩] ∧
    validateText "OUT 5, 2" =
      [⟨.error, makeRange 0 0 3, "Out value must be 0 or 1.", SRC⟩] ∧
    validateText "OUT 5, 1" = [] := by
  refine ⟨?_, by decide, by decide, by decide⟩
  simp [validateOutStatement, h1, h2]

/-- C4 witness: `OUT x` has a non-empty remainder without any comma. -/
theorem C4_out_statement_witness :
    trimChars (("OUT x".toList).drop
        ((⟨"OUT", 0, 3⟩ : Token).index + (⟨"OUT", 0, 3⟩ : Token).length)) ≠ [] ∧
    validateOutStatement ⟨"OUT", 0, 3⟩ "OUT x".toList 0 =
      [⟨.error, kwRange 0 ⟨"OUT", 0, 3⟩,
        "Out requires port, value (missing comma).", SRC⟩] :=
  ⟨by decide,
   (C4_out_statement_amended ⟨"OUT", 0, 3⟩ "OUT x".toList 0 (by decide) (by decide)).1⟩

/-- C8: a line whose first token is IF pushes an IF frame exactly when a THEN
token is found and the found THEN is the line's last token; with a THEN
mid-line (single-line `IF … THEN stmt`) nothing is pushed and no diagnostic
is emitted; with no THEN at all an `If without Then.` diagnostic is emitted
and nothing is pushed.  In each case the rest of the stack is untouched. -/
theorem C8_if_push_iff (t0 : Token) (rest : List Token) (lineNumber : Nat)
    (line : List Char) (stack : List BlockEntry) (hIF : t0.text = "IF") :
    ((t0 :: rest).findIdx? (fun t => t.text = "THEN") =
        some ((t0 :: rest).length - 1) →
      validateSyntaxLine (t0 :: rest) lineNumber line stack =
        ([], (pushBlock stack "IF" t0 lineNumber).2)) ∧
    (∀ j, (t0 :: rest).findIdx? (fun t => t.text = "THEN") = some j →
      j ≠ (t0 :: rest).length - 1 →
      validateSyntaxLine (t0 :: rest) lineNumber line stack = ([], stack)) ∧
    ((t0 :: rest).findIdx? (fun t => t.text = "THEN") = none →
      validateSyntaxLine (t0 :: rest) lineNumber line stack =
        ([⟨.error, kwRange lineNumber t0, "If without Then.", SRC⟩], stack)) := by
  refine ⟨?_, ?_, ?_⟩
  · intro h
    simp [validateSyntaxLine, hIF, h]
  · intro j h hne
    have hne' : j ≠ rest.length := by simpa using hne
    simp [validateSyntaxLine, hIF, h, hne']
  · intro h
    simp [validateSyntaxLine, hIF, h]

/-- C8 witness: `IF x THEN` (THEN last) pushes a frame; the push branch of the
theorem applied to the tokens of that line. -/
theorem C8_if_push_witness :
    (Token.text ⟨"IF", 0, 2⟩ = "IF") ∧
    ([(⟨"IF", 0, 2⟩ : Token), ⟨"X", 3, 1⟩, ⟨"THEN", 5, 4⟩].findIdx?
        (fun t => t.text = "THEN") =
      some ([(⟨"IF", 0, 2⟩ : Token), ⟨"X", 3, 1⟩, ⟨"THEN", 5, 4⟩].length - 1)) ∧
    validateSyntaxLine [⟨"IF", 0, 2⟩, ⟨"X", 3, 1⟩, ⟨"THEN", 5, 4⟩] 0
        "IF x THEN".toList [] =
      ([], (pushBlock [] "IF" ⟨"IF", 0, 2⟩ 0).2) :=
  ⟨rfl, by decide,
   (C8_if_push_iff ⟨"IF", 0, 2⟩ [⟨"X", 3, 1⟩, ⟨"THEN", 5, 4⟩] 0 "IF x THEN".toList []
     rfl).1 (by decide)⟩

/-- C5 amended: on a DO/LOOP line whose WHILE/UNTIL keyword immediately
follows the DO/LOOP and whose remaining tokens carry no further WHILE/UNTIL,
the `requires a condition` error is emitted exactly when the keyword is the
line's last TOKEN — raw text after the keyword that lexes to no token (digits,
operators, e.g. `5 > 3`) does not count as a condition, so such a line still
yields the error. -/
theorem C5_loop_condition_amended (t0 w : Token) (rest : List Token)
    (lineNumber : Nat) (context : String)
    (hw : w.text = "WHILE" ∨ w.text = "UNTIL")
    (hrest : ∀ x ∈ rest, x.text ≠ "WHILE" ∧ x.text ≠ "UNTIL") :
    (rest = [] →
      parseLoopCondition (t0 :: w :: rest) lineNumber context =
        ([⟨.error, makeRange lineNumber w.index (w.index + w.length),
           formatKeyword context ++ " " ++ formatKeyword w.text ++
             " requires a condition.", SRC⟩],
         some ⟨w.text, true⟩)) ∧
    (∀ l, rest.getLast? = some l → l.index ≠ w.index →
      parseLoopCondition (t0 :: w :: rest) lineNumber context =
        ([], some ⟨w.text, false⟩)) := by
  rcases hw with hw | hw
  · have h1 : lastTokenWithText (w :: rest) "WHILE" = some w :=
      lastTokenWithText_cons_self _ _ _ hw (fun x hx => (hrest x hx).1)
    have h2 : lastTokenWithText (w :: rest) "UNTIL" = none :=
      lastTokenWithText_cons_none _ _ _ (by rw [hw]; decide)
        (fun x hx => (hrest x hx).2)
    constructor
    · rintro rfl
      simp [parseLoopCondition, h1, h2, hw]
    · intro l hl hne
      rcases rest with _ | ⟨r, rs⟩
      · cases hl
      · have hlast : (t0 :: w :: r :: rs).getLast? = some l := by
          rw [List.getLast?_cons_cons, List.getLast?_cons_cons]; exact hl
        simp [parseLoopCondition, h1, h2, hw, hlast, hne]
  · have h1 : lastTokenWithText (w :: rest) "WHILE" = none :=
      lastTokenWithText_cons_none _ _ _ (by rw [hw]; decide)
        (fun x hx => (hrest x hx).1)
    have h2 : lastTokenWithText (w :: rest) "UNTIL" = some w :=
      lastTokenWithText_cons_self _ _ _ hw (fun x hx => (hrest x hx).2)
    constructor
    · rintro rfl
      simp [parseLoopCondition, h1, h2, hw]
    · intro l hl hne
      rcases rest with _ | ⟨r, rs⟩
      · cases hl
      · have hlast : (t0 :: w :: r :: rs).getLast? = some l := by
          rw [List.getLast?_cons_cons, List.getLast?_cons_cons]; exact hl
        simp [parseLoopCondition, h1, h2, hw, hlast, hne]

/-- C5 witness: the DO line of `DO WHILE 5 > 3` — the keyword is the last
token, so the error branch of the theorem applies. -/
theorem C5_loop_condition_witness :
    ((Token.text ⟨"WHILE", 3, 5⟩ = "WHILE" ∨ Token.text ⟨"WHILE", 3, 5⟩ = "UNTIL")) ∧
    parseLoopCondition [⟨"DO", 0, 2⟩, ⟨"WHILE", 3, 5⟩] 0 "DO" =
      ([⟨.error, makeRange 0 3 8,
         formatKeyword "DO" ++ " " ++ formatKeyword "WHILE" ++
           " requires a condition.", SRC⟩],
       some ⟨"WHILE", true⟩) :=
  ⟨Or.inl rfl,
   (C5_loop_condition_amended ⟨"DO", 0, 2⟩ ⟨"WHILE", 3, 5⟩ [] 0 "DO" (Or.inl rfl)
     (by simp)).1 rfl⟩

/-- C7: when the LOOP of a Do…Loop pair carries a well-formed condition and
the nearest DO frame on the stack recorded a condition placed on the DO
(`conditionPlacement = "do"`), `popDoBlock` emits the
`Loop cannot include a condition when Do already has While/Until.` error
anchored at the LOOP keyword's column range, and the DO frame is popped off
the stack.  The whole pass on `DO WHILE x > 0` / `LOOP UNTIL y < 0` yields
exactly that one diagnostic, anchored at `LOOP`. -/
theorem C7_loop_condition_conflict (above : List BlockEntry) (frame : BlockEntry)
    (rest : List BlockEntry) (token : Token) (lineNumber : Nat) (cond : LoopCond)
    (hAbove : ∀ e ∈ above, e.type ≠ "DO") (hType : frame.type = "DO")
    (hPlace : frame.conditionPlacement = some "do") :
    popDoBlock (above ++ frame :: rest) token lineNumber (some cond) =
      (above.map (fun missing =>
          (⟨.error, makeRange missing.line missing.character
              (missing.character + missing.length),
            "Missing " ++ (BLOCK_ENDINGS missing.type).getD "End" ++ " before Loop.",
            SRC⟩ : Diagnostic)) ++
        [⟨.error, kwRange lineNumber token,
          "Loop cannot include a condition when Do already has While/Until.", SRC⟩],
       rest.drop 1) ∧
    validateText "DO WHILE x > 0\nLOOP UNTIL y < 0" =
      [⟨.error, makeRange 1 0 4,
        "Loop cannot include a condition when Do already has While/Until.", SRC⟩] := by
  refine ⟨?_, by decide⟩
  have hfind := findOpenBlock_append_cons above frame rest "DO" hAbove hType
  have htake : (above ++ frame :: rest).take above.length = above :=
    List.take_left _ _
  have hget := get?_append_cons above frame rest
  have hdrop := drop_append_cons above frame rest
  cases above with
  | nil =>
    simp only [List.nil_append, List.length_nil] at hfind hget hdrop htake ⊢
    simp [popDoBlock, hfind, hget, hdrop, hPlace]
  | cons a as =>
    simp only [List.cons_append] at hfind hget hdrop htake ⊢
    simp [popDoBlock, hfind, hget, hdrop, htake, hPlace]
    rw [List.getElem_append_right (Nat.le_refl as.length)]
    simp [hPlace]

/-- C7 witness: a lone DO frame carrying a do-placed condition, popped by a
conditioned LOOP. -/
theorem C7_loop_condition_witness :
    ((⟨"DO", 0, 0, 2, some "do", some "WHILE"⟩ : BlockEntry).type = "DO") ∧
    ((⟨"DO", 0, 0, 2, some "do", some "WHILE"⟩ : BlockEntry).conditionPlacement =
      some "do") ∧
    popDoBlock [⟨"DO", 0, 0, 2, some "do", some "WHILE"⟩] ⟨"LOOP", 0, 4⟩ 1
        (some ⟨"UNTIL", false⟩) =
      ([⟨.error, kwRange 1 ⟨"LOOP", 0, 4⟩,
         "Loop cannot include a condition when Do already has While/Until.", SRC⟩],
       []) := by
  refine ⟨rfl, rfl, ?_⟩
  have h := (C7_loop_condition_conflict [] ⟨"DO", 0, 0, 2, some "do", some "WHILE"⟩
    [] ⟨"LOOP", 0, 4⟩ 1 ⟨"UNTIL", false⟩ (by simp) rfl rfl).1
  simpa using h

/-- C2 amended: the `IN(...)` shape check runs for every occurrence of the
token `IN` only on lines whose first token is NOT one of the block-structure
keywords the dispatcher handles with an early return (IF, ELSEIF, ELSE,
ENDIF, FOR, NEXT, DO, LOOP, WHILE, WEND, SUB, FUNCTION, TYPE, WITH, SELECT,
and END when followed by IF/SUB/FUNCTION/SELECT/TYPE/WITH); on such lines the
dispatcher leaves the stack untouched and its diagnostics include every
per-occurrence `IN` diagnostic, which — as `x = IN(` / `x = IN()` /
`x = IN(300)` show end to end — are `In requires a closing parenthesis.` for
a missing close paren, `In requires a port value.` for an empty argument, and
`In port must be 0 to 255.` for an out-of-range bare literal. -/
theorem C2_in_check_dispatch (t0 : Token) (rest : List Token) (lineNumber : Nat)
    (line : List Char) (stack : List BlockEntry)
    (hFirst : t0.text ∉ (["IF", "ELSEIF", "ELSE", "ENDIF", "FOR", "NEXT", "DO",
      "LOOP", "WHILE", "WEND", "SUB", "FUNCTION", "TYPE", "WITH", "SELECT"] :
        List String))
    (hEnd : t0.text = "END" → ∀ s, rest.head? = some s →
      s.text ∉ (["IF", "SUB", "FUNCTION", "SELECT", "TYPE", "WITH"] : List String)) :
    (validateSyntaxLine (t0 :: rest) lineNumber line stack).2 = stack ∧
    (∀ t ∈ t0 :: rest, ∀ d ∈ inUsageCheck t (stripComments line) lineNumber,
      d ∈ (validateSyntaxLine (t0 :: rest) lineNumber line stack).1) ∧
    validateText "x = IN(" =
      [⟨.error, makeRange 0 4 6, "In requires a closing parenthesis.", SRC⟩] ∧
    validateText "x = IN()" =
      [⟨.error, makeRange 0 4 6, "In requires a port value.", SRC⟩] ∧
    validateText "x = IN(300)" =
      [⟨.error, makeRange 0 4 6, "In port must be 0 to 255.", SRC⟩] := by
  simp only [List.mem_cons, List.not_mem_nil, or_false, not_or] at hFirst
  obtain ⟨h1, h2, h3, h4, h5, h6, h7, h8, h9, h10, h11, h12, h13, h14, h15⟩ := hFirst
  have key : validateSyntaxLine (t0 :: rest) lineNumber line stack =
      (((if t0.text = "OUT" then
          validateOutStatement t0 (stripComments line) lineNumber else []) ++
        ((if t0.text = "DEBUG" then
          validateDebugStatement t0 (stripComments line) lineNumber else []) ++
        ((if t0.text = "INPUT" then
          validateInputStatement t0 (stripComments line) lineNumber else []) ++
        ((if t0.text = "OUTPUT" then
          validateOutputStatement t0 (stripComments line) lineNumber else []) ++
        ((if t0.text = "DELAY" then
          validateDelayStatement t0 (stripComments line) lineNumber else []) ++
        (if t0.text = "DIM" then
          validateDimStatement t0 (stripComments line) lineNumber else [])))))) ++
       validateInFunctionUsage (t0 :: rest) (stripComments line) lineNumber,
       stack) := by
    by_cases hE : t0.text = "END"
    · rcases rest with _ | ⟨s, srest⟩
      · simp [validateSyntaxLine, hE]
      · have hs := hEnd hE s rfl
        simp only [List.mem_cons, List.not_mem_nil, or_false, not_or] at hs
        obtain ⟨hs0, hs1, hs2, hs3, hs4, hs5⟩ := hs
        simp [validateSyntaxLine, hE, hs0, hs1, hs2, hs3, hs4, hs5]
    · simp [validateSyntaxLine, hE, h1, h2, h3, h4, h5, h6, h7, h8, h9, h10,
        h11, h12, h13, h14, h15]
  refine ⟨by rw [key], ?_, by decide, by decide, by decide⟩
  intro t ht d hd
  rw [key]
  exact List.mem_append_right _ (mem_validateInFunctionUsage _ _ _ ht hd)

/-- C2 witness: the line `x = IN(` — first token `X` is no block keyword, and
its `IN` occurrence's closing-parenthesis diagnostic reaches the dispatcher's
output. -/
theorem C2_in_check_dispatch_witness :
    ((Token.text ⟨"X", 0, 1⟩) ∉ (["IF", "ELSEIF", "ELSE", "ENDIF", "FOR", "NEXT",
      "DO", "LOOP", "WHILE", "WEND", "SUB", "FUNCTION", "TYPE", "WITH",
      "SELECT"] : List String)) ∧
    (validateSyntaxLine [⟨"X", 0, 1⟩, ⟨"IN", 4, 2⟩] 0 "x = IN(".toList []).2 = [] ∧
    (∀ t ∈ [(⟨"X", 0, 1⟩ : Token), ⟨"IN", 4, 2⟩],
      ∀ d ∈ inUsageCheck t (stripComments "x = IN(".toList) 0,
        d ∈ (validateSyntaxLine [⟨"X", 0, 1⟩, ⟨"IN", 4, 2⟩] 0 "x = IN(".toList []).1) := by
  have h := C2_in_check_dispatch ⟨"X", 0, 1⟩ [⟨"IN", 4, 2⟩] 0 "x = IN(".toList []
    (by decide) (fun hcontra => absurd hcontra (by decide))
  exact ⟨by decide, h.1, h.2.1⟩
